import Mathlib

/-!
Verification of the passlib handler framework (passlib/utils/handlers.py and
passlib/exc.py) against its natural-language specification.

The Python code is shallowly embedded: Python strings become Lean String
(operating on the code-point list via .data), bytes become List Nat, dynamic
values become the PyValue sum, raised exceptions become an Except error value,
and emitted warnings are collected in the returned value.  Each definition
mirrors the corresponding source function; deviations forced by the embedding
are noted in the doc comments.
-/

namespace Passlib

/--
Exceptions raised by the framework, mirroring passlib/exc.py.  The error
constructor functions InvalidHashError / MalformedHashError /
ZeroPaddedRoundsError / ChecksumSizeError in exc.py all build plain Python
ValueError objects that differ in their message; they are modelled as
distinct constructors carrying the data used to build the message, and
errorMessage below rebuilds the message text.  ExpectedTypeError builds a
TypeError; MissingBackendError and PasslibSecurityError are RuntimeError
subclasses; PasswordSizeError and UnknownBackendError are ValueError
subclasses.  ZeroPaddedRoundsError(handler) is literally
MalformedHashError(handler, "zero-padded rounds") in the source, so it is
represented that way here.
-/
inductive PasslibError where
  /-- InvalidHashError handler: ValueError "not a valid X hash" -/
  | invalidHash (handler : Option String)
  /-- MalformedHashError handler reason: ValueError "malformed X hash (reason)" -/
  | malformedHash (handler : Option String) (reason : Option String)
  /-- ExpectedTypeError value expected param: TypeError (value itself is not displayed) -/
  | expectedTypeError (expected : String) (param : String)
  /-- PasswordSizeError max_size: ValueError subclass carrying the limit -/
  | passwordSizeError (max_size : Nat)
  /-- MissingDigestError handler: ValueError (verify got a config string) -/
  | missingDigest (handler : Option String)
  /-- a plain ValueError with the given message (e.g. from the int() builtin
      or from norm_integer) -/
  | valueError (msg : String)
  /-- MissingBackendError: RuntimeError subclass -/
  | missingBackend (msg : String)
  /-- PasslibSecurityError: RuntimeError subclass -/
  | securityError (msg : String)
  /-- UnknownBackendError hasher backend: ValueError subclass -/
  | unknownBackend (hasher : String) (backend : String)
  deriving DecidableEq, Repr

/-- exc.py _get_name: handler.name if handler else "<unnamed>" -/
def getName (handler : Option String) : String :=
  handler.getD "<unnamed>"

/--
The message attached to each error, following the format strings used by the
error constructors in passlib/exc.py.
-/
def errorMessage : PasslibError → String
  | .invalidHash h => "not a valid " ++ getName h ++ " hash"
  | .malformedHash h none => "malformed " ++ getName h ++ " hash"
  | .malformedHash h (some r) => "malformed " ++ getName h ++ " hash (" ++ r ++ ")"
  | .expectedTypeError expected param => param ++ " must be " ++ expected ++ ", not <other>"
  | .passwordSizeError _ => "password exceeds maximum allowed size"
  | .missingDigest h =>
      "expected " ++ getName h ++ " hash, got " ++ getName h ++ " config string instead"
  | .valueError msg => msg
  | .missingBackend msg => msg
  | .securityError msg => msg
  | .unknownBackend hasher b => hasher ++ ": unknown backend: " ++ b

/--
Whether the exception is (a subclass of) Python ValueError.  Used to model
the except-ValueError clause of GenericHandler.identify.  Per exc.py:
invalid/malformed hash errors, plain ValueErrors, PasswordSizeError and
UnknownBackendError are ValueErrors; ExpectedTypeError is a TypeError;
MissingBackendError and PasslibSecurityError are RuntimeErrors.
-/
def isValueError : PasslibError → Bool
  | .invalidHash _ => true
  | .malformedHash _ _ => true
  | .expectedTypeError _ _ => false
  | .passwordSizeError _ => true
  | .missingDigest _ => true
  | .valueError _ => true
  | .missingBackend _ => false
  | .securityError _ => false
  | .unknownBackend _ _ => true

/--
A dynamically typed Python value, as far as the framework inspects one:
text (str), bytes, int, or anything else (carrying a tag naming its type).
Bytes are byte lists (each entry below 256 in real executions).
-/
inductive PyValue where
  | str (s : String)
  | bytes (b : List Nat)
  | int (i : Int)
  | other (tag : String)
  deriving DecidableEq, Repr

/-- Python len() for str (code points) and bytes; 0 for non-sized values
(the framework only applies len after an isinstance check). -/
def pyLen : PyValue → Nat
  | .str s => s.data.length
  | .bytes b => b.length
  | .int _ => 0
  | .other _ => 0

/-- isinstance(value, (str, bytes)) -/
def isStrOrBytes : PyValue → Bool
  | .str _ => true
  | .bytes _ => true
  | _ => false

/--
Modelled from the spec: MAX_PASSWORD_SIZE lives in passlib/utils/__init__.py,
which is not part of the sources at hand; the spec and the PasswordSizeError
docstring in passlib/exc.py state the default global maximum password size is
4096 characters.
-/
def MAX_PASSWORD_SIZE : Nat := 4096

/--
handlers.py validate_secret: ensure secret has correct type and size.
Raises ExpectedStringError(secret, "secret") for a non-str/bytes value and
PasswordSizeError(MAX_PASSWORD_SIZE) when len(secret) > MAX_PASSWORD_SIZE.
-/
def validate_secret (secret : PyValue) : Except PasslibError Unit :=
  if ¬ isStrOrBytes secret then
    .error (.expectedTypeError "str or bytes" "secret")
  else if pyLen secret > MAX_PASSWORD_SIZE then
    .error (.passwordSizeError MAX_PASSWORD_SIZE)
  else
    .ok ()

/--
Python str.split(sep) for a one-character separator: splits on every
occurrence of sep; always returns at least one part; the empty string
splits to a single empty part.
-/
def splitChar (sep : Char) : List Char → List (List Char)
  | [] => [[]]
  | c :: rest =>
    match splitChar sep rest with
    | [] => [[]]
    | p :: ps => if c = sep then [] :: p :: ps else (c :: p) :: ps

/-- s.startswith(t) for Python strings, on code points. -/
def pyStartsWith (s t : String) : Bool :=
  t.data.isPrefixOf s.data

/-- Python slicing s[n:] on code points. -/
def pyDropLen (s : String) (n : Nat) : String :=
  String.mk (s.data.drop n)

/-- Python truthiness of an optional string (None and the empty string are
falsy), as used by the checksum parameter of render_mc2 / render_mc3. -/
def pyTruthyStr : Option String → Bool
  | none => false
  | some s => s.data ≠ []

/-- the expression (chk or None): an empty checksum field becomes None. -/
def chkOrNone (chk : List Char) : Option String :=
  if chk = [] then none else some (String.mk chk)

/--
handlers.py parse_mc2: parse a hash using the 2-part modular crypt format
PREFIX + salt + optional ($ + checksum).  The separator is passed as a
single character (every caller in the source uses the one-character
default "$").  Returns (salt, checksum-or-None).
-/
def parse_mc2 (hash : String) (pfx : String) (sep : Char := '$')
    (handler : Option String := none) :
    Except PasslibError (String × Option String) :=
  if pyStartsWith hash pfx then
    match splitChar sep (hash.data.drop pfx.data.length) with
    | [salt, chk] => .ok (String.mk salt, chkOrNone chk)
    | [salt] => .ok (String.mk salt, none)
    | _ => .error (.malformedHash handler none)
  else
    .error (.invalidHash handler)

/-- digit value of a character for the Python int() builtin (0-9, a-f, A-F),
valid only when below the base. -/
def digitVal? (base : Nat) (c : Char) : Option Nat :=
  let v : Option Nat :=
    if '0' ≤ c ∧ c ≤ '9' then some (c.toNat - '0'.toNat)
    else if 'a' ≤ c ∧ c ≤ 'f' then some (c.toNat - 'a'.toNat + 10)
    else if 'A' ≤ c ∧ c ≤ 'F' then some (c.toNat - 'A'.toNat + 10)
    else none
  match v with
  | some d => if d < base then some d else none
  | none => none

/-- most-significant-first accumulation of digit values. -/
def digitsValAux (base : Nat) (acc : Nat) : List Char → Option Nat
  | [] => some acc
  | c :: cs =>
    match digitVal? base c with
    | some d => digitsValAux base (acc * base + d) cs
    | none => none

/-- value of a nonempty run of digits, most significant first. -/
def pyDigits? (base : Nat) (cs : List Char) : Option Nat :=
  if cs = [] then none else digitsValAux base 0 cs

/--
The Python int(s, base) builtin as used on the rounds field: an optional
sign followed by a nonempty digit run valid in the base.  (int() also
strips whitespace and allows single underscores between digits; those
extensions are not modelled.)  None models the ValueError raised for an
invalid literal.
-/
def pyIntOfChars? (base : Nat) : List Char → Option Int
  | [] => none
  | c :: rest =>
    if c = '-' then (pyDigits? base rest).map (fun n => -(n : Int))
    else if c = '+' then (pyDigits? base rest).map (fun n => (n : Int))
    else (pyDigits? base (c :: rest)).map (fun n => (n : Int))

/--
The tail of parse_mc3 (handlers.py lines 221-232), shared by its 3-part and
2-part branches: validate and parse the rounds portion, then return the
(rounds, salt, chk-or-None) result.
-/
def parse_mc3_finish (rounds salt chk : List Char) (rounds_base : Nat)
    (default_rounds : Option Int) (handler : Option String) :
    Except PasslibError (Int × String × Option String) :=
  if rounds.head? = some '0' ∧ rounds ≠ ['0'] then
    .error (.malformedHash handler (some "zero-padded rounds"))
  else if rounds ≠ [] then
    match pyIntOfChars? rounds_base rounds with
    | some r => .ok (r, String.mk salt, chkOrNone chk)
    | none =>
      .error (.valueError "invalid literal for int() with the given base")
  else
    match default_rounds with
    | none => .error (.malformedHash handler (some "empty rounds field"))
    | some d => .ok (d, String.mk salt, chkOrNone chk)

/--
handlers.py parse_mc3: parse a hash using the 3-part modular crypt format
PREFIX + rounds + $ + salt + optional ($ + checksum).  The rounds field is
rejected when zero-padded, parsed via int(rounds, rounds_base) when
nonempty, and replaced by default_rounds (malformed-hash error when that is
None) when empty.  Returns (rounds, salt, checksum-or-None).
-/
def parse_mc3 (hash : String) (pfx : String) (sep : Char := '$')
    (rounds_base : Nat := 10) (default_rounds : Option Int := none)
    (handler : Option String := none) :
    Except PasslibError (Int × String × Option String) :=
  if pyStartsWith hash pfx then
    match splitChar sep (hash.data.drop pfx.data.length) with
    | [rounds, salt, chk] =>
      parse_mc3_finish rounds salt chk rounds_base default_rounds handler
    | [rounds, salt] =>
      parse_mc3_finish rounds salt [] rounds_base default_rounds handler
    | _ => .error (.malformedHash handler none)
  else
    .error (.invalidHash handler)

/--
handlers.py render_mc2: format a hash using the 2-part modular crypt
format; inverse of parse_mc2.  The checksum part (separator included) is
omitted when the checksum is None or empty.
-/
def render_mc2 (ident salt : String) (checksum : Option String)
    (sep : Char := '$') : String :=
  if pyTruthyStr checksum then
    ident ++ salt ++ String.singleton sep ++ checksum.getD ""
  else
    ident ++ salt

/-- character used for the digit d by Python str() and the "%x" format
(lowercase hex digits). -/
def digitChar (d : Nat) : Char :=
  if d < 10 then Char.ofNat ('0'.toNat + d) else Char.ofNat ('a'.toNat + d - 10)

/-- decimal / hex rendering of a natural number, most significant digit
first, no leading zeros (Python str(n) for base 10, "%x" for base 16). -/
def natToBaseChars (base n : Nat) : List Char :=
  if n = 0 then ['0'] else ((Nat.digits base n).map digitChar).reverse

/-- rendering of a Python int in the given base, with sign. -/
def intToBaseString (base : Nat) (i : Int) : String :=
  if i < 0 then "-" ++ String.mk (natToBaseChars base i.natAbs)
  else String.mk (natToBaseChars base i.natAbs)

/--
handlers.py render_mc3: format a hash using the 3-part modular crypt
format; inverse of parse_mc3.  A None rounds value renders as an empty
rounds field; rounds_base 16 renders hex, otherwise the source asserts
rounds_base == 10 and renders decimal.  The checksum part (separator
included) is omitted when the checksum is None or empty.
-/
def render_mc3 (ident : String) (rounds : Option Int) (salt : String)
    (checksum : Option String) (sep : Char := '$') (rounds_base : Nat := 10) :
    String :=
  let roundsStr : String :=
    match rounds with
    | none => ""
    | some r => if rounds_base = 16 then intToBaseString 16 r else intToBaseString 10 r
  if pyTruthyStr checksum then
    ident ++ roundsStr ++ String.singleton sep ++ salt ++ String.singleton sep ++ checksum.getD ""
  else
    ident ++ roundsStr ++ String.singleton sep ++ salt

/--
Strict utf-8 decoding of a byte list, as performed by the Python
bytes.decode call in to_unicode_for_identify: 1-4 byte sequences,
continuation bytes in 0x80-0xBF, no overlong encodings, no surrogates,
maximum code point U+10FFFF.  Returns none when the bytes are not valid
utf-8 (the UnicodeDecodeError case).
-/
def utf8Decode? : List Nat → Option (List Char)
  | [] => some []
  | b1 :: rest =>
    if b1 < 0x80 then
      (utf8Decode? rest).map (fun cs => Char.ofNat b1 :: cs)
    else if b1 < 0xC2 then none
    else if b1 < 0xE0 then
      match rest with
      | b2 :: rest2 =>
        if 0x80 ≤ b2 ∧ b2 < 0xC0 then
          (utf8Decode? rest2).map (fun cs =>
            Char.ofNat ((b1 - 0xC0) * 0x40 + (b2 - 0x80)) :: cs)
        else none
      | [] => none
    else if b1 < 0xF0 then
      match rest with
      | b2 :: b3 :: rest3 =>
        if (if b1 = 0xE0 then 0xA0 else 0x80) ≤ b2 ∧
            b2 < (if b1 = 0xED then 0xA0 else 0xC0) ∧
            0x80 ≤ b3 ∧ b3 < 0xC0 then
          (utf8Decode? rest3).map (fun cs =>
            Char.ofNat ((b1 - 0xE0) * 0x1000 + (b2 - 0x80) * 0x40 + (b3 - 0x80)) :: cs)
        else none
      | _ => none
    else if b1 < 0xF5 then
      match rest with
      | b2 :: b3 :: b4 :: rest4 =>
        if (if b1 = 0xF0 then 0x90 else 0x80) ≤ b2 ∧
            b2 < (if b1 = 0xF4 then 0x90 else 0xC0) ∧
            0x80 ≤ b3 ∧ b3 < 0xC0 ∧ 0x80 ≤ b4 ∧ b4 < 0xC0 then
          (utf8Decode? rest4).map (fun cs =>
            Char.ofNat ((b1 - 0xF0) * 0x40000 + (b2 - 0x80) * 0x1000 +
              (b3 - 0x80) * 0x40 + (b4 - 0x80)) :: cs)
        else none
      | _ => none
    else none
  termination_by l => l.length

/-- latin-1 decoding of a byte list: each byte maps to the code point of
the same value.  Total for genuine bytes (below 256). -/
def latin1Decode (b : List Nat) : List Char :=
  b.map Char.ofNat

/--
handlers.py to_unicode_for_identify: a str passes through; bytes are
decoded as utf-8, falling back to the foolproof latin-1 on a decode
error; anything else raises ExpectedStringError(hash, "hash").
-/
def to_unicode_for_identify (hash : PyValue) : Except PasslibError String :=
  match hash with
  | .str s => .ok s
  | .bytes b =>
    match utf8Decode? b with
    | some cs => .ok (String.mk cs)
    | none => .ok (String.mk (latin1Decode b))
  | _ => .error (.expectedTypeError "str or bytes" "hash")

/--
Modelled from the spec: consteq lives in passlib/utils/__init__.py, which
is not part of the sources at hand; it is the constant-time equality
comparison used by GenericHandler.verify, extensionally plain equality of
the two checksums.
-/
def consteq {C : Type} [DecidableEq C] (a b : C) : Bool :=
  a = b

/--
A GenericHandler-derived handler class (handlers.py GenericHandler), with
its checksum routine modelled as a deterministic function of the settings
and the secret.  S is the type of the instance's settings state
(salt/rounds/ident/... as populated by the constructor), C the type of the
checksum (str or raw bytes in the source).

Fields mirror the class surface used by hash/verify/identify:
defaults is the settings state built by the constructor under
use_defaults=True; calc_checksum is _calc_checksum; to_string renders an
instance whose checksum is set; from_string parses a hash or config string
into settings plus optional checksum (None for a config string), raising
(per its documented contract) a ValueError for an incorrectly formatted
hash; ident and hash_regex are the optional identify fast paths (the
compiled regex is abstracted as a boolean predicate).
-/
structure GHandler (S C : Type) where
  name : String
  defaults : S
  calc_checksum : S → PyValue → C
  to_string : S → C → String
  from_string : String → Except PasslibError (S × Option C)
  ident : Option String := none
  hash_regex : Option (String → Bool) := none

/--
GenericHandler.hash classmethod (sans the deprecated settings-kwds path,
which is dead when no keywords are passed): validate the secret, construct
an instance with defaults, compute the checksum, render to string.
-/
def GHandler.hash {S C : Type} (H : GHandler S C) (secret : PyValue) :
    Except PasslibError String := do
  let _ ← validate_secret secret
  let self := H.defaults
  let chk := H.calc_checksum self secret
  return H.to_string self chk

/--
GenericHandler.verify classmethod: validate the secret, parse the hash
string, fail with MissingDigestError when the parsed instance carries no
checksum (config string), else recompute the checksum with the parsed
settings and compare with consteq.
-/
def GHandler.verify {S C : Type} [DecidableEq C] (H : GHandler S C)
    (secret : PyValue) (hash : String) : Except PasslibError Bool := do
  let _ ← validate_secret secret
  let (self, chk?) ← H.from_string hash
  match chk? with
  | none => .error (.missingDigest (some H.name))
  | some chk => return consteq (H.calc_checksum self secret) chk

/--
GenericHandler.identify classmethod: convert to unicode (raising for
non-str/bytes input), empty string is never a match, then prefer the ident
literal-prefix test, then the regex, then fall back to a full parse
treating a ValueError as False (any other exception propagates).
-/
def GHandler.identify {S C : Type} (H : GHandler S C) (hash : PyValue) :
    Except PasslibError Bool :=
  match to_unicode_for_identify hash with
  | .error e => .error e
  | .ok h =>
    if h.data = [] then .ok false
    else
      match H.ident with
      | some id0 => .ok (pyStartsWith h id0)
      | none =>
        match H.hash_regex with
        | some pat => .ok (pat h)
        | none =>
          match H.from_string h with
          | .ok _ => .ok true
          | .error e => if isValueError e then .ok false else .error e

/--
handlers.py PrefixWrapper: wraps another handler, exchanging the constant
orig_prefix on the wrapped handler's hashes for the wrapper's own prefix
(source attributes prefix / orig_prefix; the former is renamed wrapPrefix
here because its source spelling is reserved in Lean).
-/
structure PrefixWrapper (S C : Type) where
  name : String
  wrapped : GHandler S C
  wrapPrefix : String := ""
  origPrefix : String := ""

/--
PrefixWrapper._unwrap_hash: given a hash belonging to the wrapper, return
the original version; InvalidHashError(self) when the wrapper prefix is
missing.
-/
def PrefixWrapper.unwrap_hash {S C : Type} (w : PrefixWrapper S C)
    (hash : String) : Except PasslibError String :=
  if pyStartsWith hash w.wrapPrefix then
    .ok (w.origPrefix ++ pyDropLen hash w.wrapPrefix.data.length)
  else
    .error (.invalidHash (some w.name))

/--
PrefixWrapper._wrap_hash: given an original hash, return the wrapper's
version; InvalidHashError(self.wrapped) when the original prefix is
missing.  (The source also decodes a bytes argument as ascii first; the
embedding takes the string.)
-/
def PrefixWrapper.wrap_hash {S C : Type} (w : PrefixWrapper S C)
    (hash : String) : Except PasslibError String :=
  if pyStartsWith hash w.origPrefix then
    .ok (w.wrapPrefix ++ pyDropLen hash w.origPrefix.data.length)
  else
    .error (.invalidHash (some w.wrapped.name))

/--
PrefixWrapper.identify: convert to unicode, return False when the wrapper
prefix is missing, else unwrap and delegate to the wrapped handler's
identify.
-/
def PrefixWrapper.identify {S C : Type} (w : PrefixWrapper S C)
    (hash : PyValue) : Except PasslibError Bool :=
  match to_unicode_for_identify hash with
  | .error e => .error e
  | .ok h =>
    if ¬ pyStartsWith h w.wrapPrefix then .ok false
    else
      match w.unwrap_hash h with
      | .error e => .error e
      | .ok u => w.wrapped.identify (.str u)

/--
Outcome of invoking a backend's loader (_load_backend_NAME per the
BackendMixin contract): True (loaded), False (not available, turned into
MissingBackendError by _set_backend), or a raised PasslibSecurityError.
-/
inductive LoadOutcome where
  | loaded
  | missing
  | security (msg : String)
  deriving DecidableEq, Repr

/--
The backend-selection state of a multi-backend handler class
(handlers.py BackendMixin): the handler name, the ordered candidate
backend names, the loader behaviour for each name (attribute lookup of
_load_backend_NAME, modelled as a total map since loaders are class
attributes), and the currently loaded backend (the private __backend
attribute, None when unset).
-/
structure BackendSpec where
  name : String
  backends : List String
  loader : String → LoadOutcome
  current : Option String := none

/--
BackendMixin.set_backend for an explicit backend name, past the
current-backend early return: unknown names fail with UnknownBackendError,
then _set_backend runs the loader; a False return raises
MissingBackendError naming the backend, a security refusal propagates, and
on success the backend name is returned.  (The dryrun flag only suppresses
the commit of the class-level __backend attribute and the global lock
serializes the mutation; neither affects the returned or raised value,
which is what the embedding captures.)
-/
def load_backend (spec : BackendSpec) (n : String) : Except PasslibError String :=
  if n ∉ spec.backends then
    .error (.unknownBackend spec.name n)
  else
    match spec.loader n with
    | .loaded => .ok n
    | .missing => .error (.missingBackend (spec.name ++ ": backend not available: " ++ n))
    | .security msg => .error (.securityError msg)

/--
The any/default loop of BackendMixin.set_backend: try each candidate via
set_backend(name) in order; a MissingBackendError continues; the first
PasslibSecurityError is remembered (in default_error) and the loop
continues; when the candidates are exhausted the remembered security error
is re-raised, or a MissingBackendError "no backends available" when none
was remembered.
-/
def set_backend_any_loop (spec : BackendSpec) :
    List String → Option PasslibError → Except PasslibError String
  | [], none => .error (.missingBackend (spec.name ++ ": no backends available"))
  | [], some e => .error e
  | n :: rest, defErr =>
    match (if spec.current = some n then .ok n else load_backend spec n :
        Except PasslibError String) with
    | .ok m => .ok m
    | .error (.missingBackend _) => set_backend_any_loop spec rest defErr
    | .error (.securityError msg) =>
      set_backend_any_loop spec rest
        (match defErr with
         | none => some (.securityError msg)
         | some e => some e)
    | .error e => .error e

/--
BackendMixin.set_backend: return the current backend when name is "any"
and one is loaded, or when name equals the current backend (and is
nonempty, per Python truthiness of the name); resolve "any"/"default" via
the candidate loop; otherwise load the explicitly named backend.
-/
def set_backend (spec : BackendSpec) (name : String) : Except PasslibError String :=
  if (name = "any" ∧ spec.current.isSome) ∨ (name ≠ "" ∧ spec.current = some name) then
    .ok (spec.current.getD name)
  else if name = "any" ∨ name = "default" then
    set_backend_any_loop spec spec.backends none
  else
    load_backend spec name

/-- A warning emitted through warnings.warn with category PasslibHashWarning. -/
inductive PyWarning where
  | passlibHashWarning (msg : String)
  deriving DecidableEq, Repr

/--
The maximum check of handlers.py norm_integer (the second half of the
function, operating on the possibly min-clamped value): skipped when max
is None or 0 (Python truthiness of the max parameter), else an
over-maximum value is clamped with a warning in relaxed mode and raises
ValueError otherwise.  ws carries warnings already emitted.
-/
def norm_integer_max (name : String) (v : Int) (hi : Option Int) (param : String)
    (relaxed : Bool) (ws : List PyWarning) :
    Except PasslibError (Int × List PyWarning) :=
  match hi with
  | none => .ok (v, ws)
  | some m =>
    if m ≠ 0 ∧ v > m then
      let msg := name ++ ": " ++ param ++ " (" ++ toString v ++
        ") is too large, cannot be more than " ++ toString m
      if relaxed then .ok (m, ws ++ [.passlibHashWarning msg])
      else .error (.valueError msg)
    else .ok (v, ws)

/--
handlers.py norm_integer: validate an integer setting value against
[lo, hi].  A non-int value raises ExpectedTypeError; a value below the
minimum is clamped with a PasslibHashWarning in relaxed mode and raises
ValueError in strict mode; then the maximum check runs on the result.
Returns the normalized value together with the warnings emitted.
-/
def norm_integer (name : String) (value : PyValue) (lo : Int) (hi : Option Int)
    (param : String := "value") (relaxed : Bool := false) :
    Except PasslibError (Int × List PyWarning) :=
  match value with
  | .int v =>
    if v < lo then
      let msg := name ++ ": " ++ param ++ " (" ++ toString v ++
        ") is too low, must be at least " ++ toString lo
      if relaxed then norm_integer_max name lo hi param relaxed [.passlibHashWarning msg]
      else .error (.valueError msg)
    else norm_integer_max name v hi param relaxed []
  | _ => .error (.expectedTypeError "integer" param)

/--
The rounds bounds carried at class level by a HasRounds handler
(handlers.py HasRounds: min_rounds defaults to 0, max_rounds to None).
-/
structure RoundsConfig where
  name : String
  min_rounds : Int := 0
  max_rounds : Option Int := none

/--
HasRounds._norm_rounds: delegates to
norm_integer(cls, rounds, cls.min_rounds, cls.max_rounds, param, relaxed).
-/
def norm_rounds (cfg : RoundsConfig) (rounds : PyValue) (relaxed : Bool := false)
    (param : String := "rounds") : Except PasslibError (Int × List PyWarning) :=
  norm_integer cfg.name rounds cfg.min_rounds cfg.max_rounds param relaxed

/--
A small concrete GenericHandler subclass used to witness the generic
theorems: settings are trivial, the checksum is the parity of the secret's
length, rendered after a literal prefix.
-/
def toyHandler : GHandler Unit Bool where
  name := "toy"
  defaults := ()
  calc_checksum := fun _ s => pyLen s % 2 = 0
  to_string := fun _ c => if c then "toy$T" else "toy$F"
  from_string := fun h =>
    if h = "toy$T" then .ok ((), some true)
    else if h = "toy$F" then .ok ((), some false)
    else if h = "toy$" then .ok ((), none)
    else .error (.invalidHash (some "toy"))

/-- A concrete PrefixWrapper around toyHandler, exchanging the original
toy$ prefix for W-toy$. -/
def toyWrapper : PrefixWrapper Unit Bool where
  name := "wrapped_toy"
  wrapped := toyHandler
  wrapPrefix := "W-toy$"
  origPrefix := "toy$"

/-- A concrete backend layout used to witness the backend-selection
theorem: one security-refusing candidate followed by a loadable one. -/
def toyBackendSpec : BackendSpec where
  name := "toyhash"
  backends := ["fast", "portable"]
  loader := fun n => if n = "fast" then .security "fast backend is vulnerable" else .loaded
  current := none

/-- A concrete backend layout in which no candidate loads: the first
refuses for security reasons and the second is missing. -/
def toyBadBackendSpec : BackendSpec where
  name := "toyhash2"
  backends := ["fast", "os"]
  loader := fun n => if n = "fast" then .security "fast backend is vulnerable" else .missing
  current := none

end Passlib

namespace Passlib

/-! ## General helper lemmas -/

theorem string_ext {a b : String} (h : a.data = b.data) : a = b := by
  cases a
  cases b
  exact congrArg String.mk h

theorem string_mk_data (s : String) : String.mk s.data = s := by
  cases s; rfl

theorem string_data_ne_nil {s : String} (h : s ≠ "") : s.data ≠ [] := by
  intro hd
  exact h (string_ext hd)

theorem splitChar_ne_nil (sep : Char) (l : List Char) : splitChar sep l ≠ [] := by
  induction l with
  | nil => simp [splitChar]
  | cons c rest ih =>
    simp only [splitChar]
    match h : splitChar sep rest with
    | [] => exact absurd h ih
    | p :: ps =>
      by_cases hc : c = sep <;> simp [hc]

theorem splitChar_not_mem (sep : Char) (l : List Char) (h : sep ∉ l) :
    splitChar sep l = [l] := by
  induction l with
  | nil => rfl
  | cons c rest ih =>
    have hc : c ≠ sep := fun hc => h (hc ▸ List.mem_cons_self c rest)
    have hr : sep ∉ rest := fun hr => h (List.mem_cons_of_mem c hr)
    simp only [splitChar, ih hr]
    simp [hc]

theorem splitChar_append (sep : Char) (a b : List Char) (h : sep ∉ a) :
    splitChar sep (a ++ sep :: b) = a :: splitChar sep b := by
  induction a with
  | nil =>
    simp only [List.nil_append, splitChar]
    match hb : splitChar sep b with
    | [] => exact absurd hb (splitChar_ne_nil sep b)
    | p :: ps => simp
  | cons c rest ih =>
    have hc : c ≠ sep := fun hc => h (hc ▸ List.mem_cons_self c rest)
    have hr : sep ∉ rest := fun hr => h (List.mem_cons_of_mem c hr)
    simp only [List.cons_append, splitChar, List.append_eq]
    rw [ih hr]
    simp [hc]

theorem pyStartsWith_append (p r : String) : pyStartsWith (p ++ r) p = true := by
  simp [pyStartsWith]

theorem data_drop_append (p r : String) : (p ++ r).data.drop p.data.length = r.data := by
  simp [List.drop_left]

/-! ## Digit and rounds-field lemmas -/

theorem digitChar_facts :
    ∀ d, d < 16 → digitChar d ≠ '-' ∧ digitChar d ≠ '+' ∧ digitChar d ≠ '$' ∧
      (digitChar d = '0' → d = 0) := by decide

theorem digitVal_digitChar :
    ∀ base, base ≤ 16 → ∀ d, d < base → digitVal? base (digitChar d) = some d := by decide

theorem digitsValAux_map (base : Nat) (hb : base ≤ 16) (acc : Nat) (ds : List Nat)
    (h : ∀ d ∈ ds, d < base) :
    digitsValAux base acc (ds.map digitChar) =
      some (ds.foldl (fun a d => a * base + d) acc) := by
  induction ds generalizing acc with
  | nil => rfl
  | cons d rest ih =>
    simp only [List.map_cons, digitsValAux,
      digitVal_digitChar base hb d (h d (by simp))]
    exact ih (acc * base + d) (fun x hx => h x (List.mem_cons_of_mem d hx))

theorem foldr_ofDigits (base : Nat) (ds : List Nat) :
    ds.foldr (fun d a => a * base + d) 0 = Nat.ofDigits base ds := by
  induction ds with
  | nil => rfl
  | cons d rest ih =>
    simp [List.foldr_cons, Nat.ofDigits_cons, ih]
    ring

theorem natToBaseChars_ne_nil (base n : Nat) : natToBaseChars base n ≠ [] := by
  unfold natToBaseChars
  by_cases hn : n = 0
  · simp [hn]
  · rw [if_neg hn]
    simp [Nat.digits_ne_nil_iff_ne_zero.mpr hn]

theorem mem_natToBaseChars {base n : Nat} (hb2 : 2 ≤ base) {c : Char}
    (hc : c ∈ natToBaseChars base n) : ∃ d, d < base ∧ c = digitChar d := by
  unfold natToBaseChars at hc
  by_cases hn : n = 0
  · simp [hn] at hc
    exact ⟨0, by omega, by simp [hc, digitChar]⟩
  · rw [if_neg hn] at hc
    rw [List.mem_reverse] at hc
    obtain ⟨d, hd, rfl⟩ := List.mem_map.mp hc
    exact ⟨d, Nat.digits_lt_base (by omega) hd, rfl⟩

theorem pyDigits_natToBaseChars (base n : Nat) (hb2 : 2 ≤ base) (hb16 : base ≤ 16) :
    pyDigits? base (natToBaseChars base n) = some n := by
  by_cases hn : n = 0
  · subst hn
    interval_cases base <;> decide
  · have hdig : Nat.digits base n ≠ [] := Nat.digits_ne_nil_iff_ne_zero.mpr hn
    unfold natToBaseChars
    rw [if_neg hn]
    unfold pyDigits?
    rw [if_neg (by simp [hdig])]
    rw [← List.map_reverse]
    rw [digitsValAux_map base hb16 0 _
      (fun d hd => Nat.digits_lt_base (by omega) (List.mem_reverse.mp hd))]
    rw [List.foldl_reverse]
    rw [foldr_ofDigits base (Nat.digits base n)]
    rw [Nat.ofDigits_digits base n]

theorem natToBaseChars_head_ne_zero {base n : Nat} (hb2 : 2 ≤ base) (hb16 : base ≤ 16)
    (hn : n ≠ 0) : (natToBaseChars base n).head? ≠ some '0' := by
  unfold natToBaseChars
  rw [if_neg hn]
  rw [List.head?_reverse, List.getLast?_map]
  have hne : Nat.digits base n ≠ [] := Nat.digits_ne_nil_iff_ne_zero.mpr hn
  rw [List.getLast?_eq_getLast _ hne]
  simp only [Option.map_some', Option.some.injEq]
  intro h0
  have hlast := Nat.getLast_digit_ne_zero base hn
  have hlt : (Nat.digits base n).getLast hne < base :=
    Nat.digits_lt_base (by omega) (List.getLast_mem hne)
  exact hlast ((digitChar_facts _ (lt_of_lt_of_le hlt hb16)).2.2.2 (Option.some.inj h0))

theorem sep_not_mem_natToBaseChars {base n : Nat} (hb2 : 2 ≤ base) (hb16 : base ≤ 16) :
    ('$' : Char) ∉ natToBaseChars base n := by
  intro hmem
  obtain ⟨d, hd, hc⟩ := mem_natToBaseChars hb2 hmem
  exact (digitChar_facts d (lt_of_lt_of_le hd hb16)).2.2.1 hc.symm

theorem pyIntOfChars_natToBaseChars (base n : Nat) (hb2 : 2 ≤ base) (hb16 : base ≤ 16) :
    pyIntOfChars? base (natToBaseChars base n) = some (n : Int) := by
  cases h : natToBaseChars base n with
  | nil => exact absurd h (natToBaseChars_ne_nil base n)
  | cons c cs =>
    have hcmem : c ∈ natToBaseChars base n := by rw [h]; simp
    obtain ⟨d, hd, rfl⟩ := mem_natToBaseChars hb2 hcmem
    have hf := digitChar_facts d (lt_of_lt_of_le hd hb16)
    simp only [pyIntOfChars?]
    rw [if_neg hf.1, if_neg hf.2.1]
    rw [← h, pyDigits_natToBaseChars base n hb2 hb16]
    rfl

end Passlib

namespace Passlib

theorem parse_mc2_append (p tail : String) (sep : Char) (h : Option String) :
    parse_mc2 (p ++ tail) p sep h =
      (match splitChar sep tail.data with
       | [salt, chk] => .ok (String.mk salt, chkOrNone chk)
       | [salt] => .ok (String.mk salt, none)
       | _ => .error (.malformedHash h none)) := by
  unfold parse_mc2
  rw [if_pos (pyStartsWith_append p tail)]
  rw [data_drop_append]

theorem parse_mc3_append (p tail : String) (sep : Char) (rb : Nat)
    (dflt : Option Int) (h : Option String) :
    parse_mc3 (p ++ tail) p sep rb dflt h =
      (match splitChar sep tail.data with
       | [rounds, salt, chk] => parse_mc3_finish rounds salt chk rb dflt h
       | [rounds, salt] => parse_mc3_finish rounds salt [] rb dflt h
       | _ => .error (.malformedHash h none)) := by
  unfold parse_mc3
  rw [if_pos (pyStartsWith_append p tail)]
  rw [data_drop_append]

theorem data_sep_append (a b : String) (sep : Char) :
    (a ++ String.singleton sep ++ b).data = a.data ++ sep :: b.data := by
  show (a.data ++ [sep]) ++ b.data = a.data ++ sep :: b.data
  simp

theorem parse_mc3_finish_natToBaseChars (r : Nat) (s c : List Char)
    (dflt : Option Int) (h : Option String) :
    parse_mc3_finish (natToBaseChars 10 r) s c 10 dflt h =
      .ok ((r : Int), String.mk s, chkOrNone c) := by
  unfold parse_mc3_finish
  rw [if_neg ?hzp]
  case hzp =>
    by_cases hr : r = 0
    · subst hr
      intro hcon
      exact hcon.2 (by decide)
    · intro hcon
      exact natToBaseChars_head_ne_zero (by norm_num) (by norm_num) hr hcon.1
  rw [if_pos (natToBaseChars_ne_nil 10 r)]
  rw [pyIntOfChars_natToBaseChars 10 r (by norm_num) (by norm_num)]

theorem intToBaseString_natCast (r : Nat) :
    intToBaseString 10 (r : Int) = String.mk (natToBaseChars 10 r) := by
  unfold intToBaseString
  rw [if_neg (by omega), Int.natAbs_ofNat]

theorem parse_render_mc2_some (i salt c : String) (hs : '$' ∉ salt.data)
    (hc : '$' ∉ c.data) (hcne : c.data ≠ []) (h : Option String) :
    parse_mc2 (render_mc2 i salt (some c)) i '$' h = .ok (salt, some c) := by
  have hr : render_mc2 i salt (some c) = i ++ (salt ++ String.singleton '$' ++ c) := by
    unfold render_mc2
    rw [if_pos (by simp [pyTruthyStr, hcne])]
    simp [String.append_assoc]
  rw [hr, parse_mc2_append]
  rw [data_sep_append]
  rw [splitChar_append '$' _ _ hs, splitChar_not_mem '$' _ hc]
  simp [chkOrNone, hcne, string_mk_data]

theorem parse_render_mc2_none (i salt : String) (hs : '$' ∉ salt.data)
    (h : Option String) :
    parse_mc2 (render_mc2 i salt none) i '$' h = .ok (salt, none) := by
  have hr : render_mc2 i salt none = i ++ salt := by
    unfold render_mc2
    simp [pyTruthyStr]
  rw [hr, parse_mc2_append, splitChar_not_mem '$' _ hs]

end Passlib

namespace Passlib

theorem parse_render_mc3_some (i salt c : String) (r : Nat) (hs : '$' ∉ salt.data)
    (hc : '$' ∉ c.data) (hcne : c.data ≠ []) (dflt : Option Int) (h : Option String) :
    parse_mc3 (render_mc3 i (some (r : Int)) salt (some c)) i '$' 10 dflt h =
      .ok ((r : Int), salt, some c) := by
  have hr : render_mc3 i (some (r : Int)) salt (some c) =
      i ++ (String.mk (natToBaseChars 10 r) ++ String.singleton '$' ++
        (salt ++ String.singleton '$' ++ c)) := by
    unfold render_mc3
    rw [if_pos (by simp [pyTruthyStr, hcne])]
    simp [intToBaseString_natCast, String.append_assoc]
  rw [hr, parse_mc3_append]
  rw [show (String.mk (natToBaseChars 10 r) ++ String.singleton '$' ++
      (salt ++ String.singleton '$' ++ c)).data =
      natToBaseChars 10 r ++ '$' :: (salt.data ++ '$' :: c.data) from by
    rw [data_sep_append, data_sep_append]]
  rw [splitChar_append '$' _ _ (sep_not_mem_natToBaseChars (by norm_num) (by norm_num))]
  rw [splitChar_append '$' _ _ hs]
  rw [splitChar_not_mem '$' _ hc]
  show parse_mc3_finish (natToBaseChars 10 r) salt.data c.data 10 dflt h =
    Except.ok ((r : Int), salt, some c)
  rw [parse_mc3_finish_natToBaseChars]
  simp [chkOrNone, hcne]

theorem parse_render_mc3_none (i salt : String) (r : Nat) (hs : '$' ∉ salt.data)
    (dflt : Option Int) (h : Option String) :
    parse_mc3 (render_mc3 i (some (r : Int)) salt none) i '$' 10 dflt h =
      .ok ((r : Int), salt, none) := by
  have hr : render_mc3 i (some (r : Int)) salt none =
      i ++ (String.mk (natToBaseChars 10 r) ++ String.singleton '$' ++ salt) := by
    unfold render_mc3
    simp [pyTruthyStr, intToBaseString_natCast, String.append_assoc]
  rw [hr, parse_mc3_append]
  rw [show (String.mk (natToBaseChars 10 r) ++ String.singleton '$' ++ salt).data =
      natToBaseChars 10 r ++ '$' :: salt.data from by rw [data_sep_append]]
  rw [splitChar_append '$' _ _ (sep_not_mem_natToBaseChars (by norm_num) (by norm_num))]
  rw [splitChar_not_mem '$' _ hs]
  show parse_mc3_finish (natToBaseChars 10 r) salt.data [] 10 dflt h =
    Except.ok ((r : Int), salt, none)
  rw [parse_mc3_finish_natToBaseChars]
  rfl

end Passlib

namespace Passlib

/--
C2: round-trip of the MCF codec.  For every valid (salt, checksum) pair
(salt and checksum nonempty and free of the separator, checksum possibly
None), parse_mc2 (render_mc2 ident salt checksum) ident recovers
(salt, checksum); analogously parse_mc3 / render_mc3 over
(rounds, salt, checksum); and rendering the parse result reproduces a
canonical input (one in the image of render) exactly.
-/
theorem mcf_codec_roundtrip (ident salt : String) (chk : Option String) (r : Nat)
    (_hsne : salt.data ≠ []) (hs : '$' ∉ salt.data)
    (hchk : ∀ c ∈ chk, c.data ≠ [] ∧ '$' ∉ c.data) :
    parse_mc2 (render_mc2 ident salt chk) ident '$' none = .ok (salt, chk)
    ∧ parse_mc3 (render_mc3 ident (some (r : Int)) salt chk) ident '$' 10 none none =
        .ok ((r : Int), salt, chk)
    ∧ (∀ s' c', parse_mc2 (render_mc2 ident salt chk) ident '$' none = .ok (s', c') →
        render_mc2 ident s' c' = render_mc2 ident salt chk)
    ∧ (∀ r' s' c',
        parse_mc3 (render_mc3 ident (some (r : Int)) salt chk) ident '$' 10 none none =
          .ok (r', s', c') →
        render_mc3 ident (some r') s' c' = render_mc3 ident (some (r : Int)) salt chk) := by
  have hp1 : parse_mc2 (render_mc2 ident salt chk) ident '$' none = .ok (salt, chk) := by
    cases chk with
    | none => exact parse_render_mc2_none ident salt hs none
    | some c =>
      have hc := hchk c (by simp)
      exact parse_render_mc2_some ident salt c hs hc.2 hc.1 none
  have hp2 : parse_mc3 (render_mc3 ident (some (r : Int)) salt chk) ident '$' 10 none none =
      .ok ((r : Int), salt, chk) := by
    cases chk with
    | none => exact parse_render_mc3_none ident salt r hs none none
    | some c =>
      have hc := hchk c (by simp)
      exact parse_render_mc3_some ident salt c r hs hc.2 hc.1 none none
  refine ⟨hp1, hp2, ?_, ?_⟩
  · intro s' c' hp
    rw [hp1] at hp
    simp only [Except.ok.injEq, Prod.mk.injEq] at hp
    rw [hp.1, hp.2]
  · intro r' s' c' hp
    rw [hp2] at hp
    simp only [Except.ok.injEq, Prod.mk.injEq] at hp
    rw [hp.1, hp.2.1, hp.2.2]

theorem mcf_codec_roundtrip_witness :
    parse_mc2 (render_mc2 "$1$" "abc" (some "xyz")) "$1$" '$' none =
      .ok ("abc", some "xyz")
    ∧ parse_mc3 (render_mc3 "$1$" (some ((12 : Nat) : Int)) "abc" (some "xyz"))
        "$1$" '$' 10 none none = .ok (((12 : Nat) : Int), "abc", some "xyz") := by
  have h := mcf_codec_roundtrip "$1$" "abc" (some "xyz") 12 (by decide) (by decide)
    (by
      rintro c hc
      simp only [Option.mem_def, Option.some.injEq] at hc
      subst hc
      exact ⟨by decide, by decide⟩)
  exact ⟨h.1, h.2.1⟩

/--
C6: rounds-field handling of parse_mc3.  A rounds field starting with a
zero and longer than one digit raises the zero-padded malformed-hash
error; a non-zero-padded field is parsed as an integer in the given base
(10 or 16); an empty rounds field yields default_rounds when provided and
raises the empty-rounds malformed-hash error when default_rounds is None.
-/
theorem parse_mc3_rounds_field_rules :
    parse_mc3 "$1$0012$abc$xyz" "$1$" '$' 10 none none =
      .error (.malformedHash none (some "zero-padded rounds"))
    ∧ parse_mc3 "$1$12$abc$xyz" "$1$" '$' 10 none none = .ok (12, "abc", some "xyz")
    ∧ (∀ d : Int, parse_mc3 "$1$$abc$xyz" "$1$" '$' 10 (some d) none =
        .ok (d, "abc", some "xyz"))
    ∧ parse_mc3 "$1$$abc$xyz" "$1$" '$' 10 none none =
        .error (.malformedHash none (some "empty rounds field"))
    ∧ parse_mc3 "$1$ff$abc$xyz" "$1$" '$' 16 none none = .ok (255, "abc", some "xyz") :=
  ⟨rfl, rfl, fun _ => rfl, rfl, rfl⟩

/--
C10: parse_mc2 and parse_mc3 normalize an empty checksum field to None: a
hash string with a trailing separator and empty checksum parses exactly
like the corresponding config string, yielding checksum None, and
rendering the parse result drops the trailing separator instead of
reproducing it.
-/
theorem empty_checksum_parses_none (p s : String) (r : Nat) (hs : '$' ∉ s.data) :
    parse_mc2 (p ++ s ++ "$") p '$' none = .ok (s, none)
    ∧ parse_mc2 (p ++ s) p '$' none = .ok (s, none)
    ∧ render_mc2 p s none = p ++ s
    ∧ parse_mc3 (render_mc3 p (some (r : Int)) s none ++ "$") p '$' 10 none none =
        .ok ((r : Int), s, none)
    ∧ parse_mc3 (render_mc3 p (some (r : Int)) s none) p '$' 10 none none =
        .ok ((r : Int), s, none)
    ∧ render_mc3 p (some (r : Int)) s none =
        p ++ intToBaseString 10 (r : Int) ++ "$" ++ s := by
  refine ⟨?_, ?_, rfl, ?_, parse_render_mc3_none p s r hs none none, rfl⟩
  · rw [String.append_assoc, parse_mc2_append]
    rw [show (s ++ "$").data = s.data ++ '$' :: [] from rfl]
    rw [splitChar_append '$' _ _ hs]
    rfl
  · rw [parse_mc2_append, splitChar_not_mem '$' _ hs]
  · have h4 : render_mc3 p (some (r : Int)) s none ++ "$" =
        p ++ (String.mk (natToBaseChars 10 r) ++ String.singleton '$' ++ (s ++ "$")) := by
      unfold render_mc3
      simp [pyTruthyStr, intToBaseString_natCast, String.append_assoc]
    rw [h4, parse_mc3_append]
    rw [show (String.mk (natToBaseChars 10 r) ++ String.singleton '$' ++ (s ++ "$")).data =
        natToBaseChars 10 r ++ '$' :: (s.data ++ '$' :: []) from by
      rw [data_sep_append]; rfl]
    rw [splitChar_append '$' _ _ (sep_not_mem_natToBaseChars (by norm_num) (by norm_num))]
    rw [splitChar_append '$' _ _ hs]
    show parse_mc3_finish (natToBaseChars 10 r) s.data [] 10 none none =
      Except.ok ((r : Int), s, none)
    rw [parse_mc3_finish_natToBaseChars]
    rfl

theorem empty_checksum_parses_none_witness :
    parse_mc2 ("$1$" ++ "abc" ++ "$") "$1$" '$' none = .ok ("abc", none)
    ∧ parse_mc2 ("$1$" ++ "abc") "$1$" '$' none = .ok ("abc", none)
    ∧ parse_mc3 (render_mc3 "$1$" (some ((7 : Nat) : Int)) "abc" none ++ "$")
        "$1$" '$' 10 none none = .ok (((7 : Nat) : Int), "abc", none) := by
  have h := empty_checksum_parses_none "$1$" "abc" 7 (by decide)
  exact ⟨h.1, h.2.1, h.2.2.2.1⟩

end Passlib

namespace Passlib

theorem parse_mc3_finish_ne_invalid (rounds salt chk : List Char) (rb : Nat)
    (dflt : Option Int) (h h' : Option String) :
    parse_mc3_finish rounds salt chk rb dflt h ≠ .error (.invalidHash h') := by
  unfold parse_mc3_finish
  split
  · simp
  · split
    · split <;> simp
    · split <;> simp

theorem parse_mc2_ne_invalid (hash pfx : String) (sep : Char) (h h' : Option String)
    (hsw : pyStartsWith hash pfx = true) :
    parse_mc2 hash pfx sep h ≠ .error (.invalidHash h') := by
  unfold parse_mc2
  rw [if_pos hsw]
  rcases splitChar sep (hash.data.drop pfx.data.length) with _ | ⟨a, _ | ⟨b, _ | ⟨c, t⟩⟩⟩ <;>
    simp

theorem parse_mc3_ne_invalid (hash pfx : String) (sep : Char) (rb : Nat)
    (dflt : Option Int) (h h' : Option String)
    (hsw : pyStartsWith hash pfx = true) :
    parse_mc3 hash pfx sep rb dflt h ≠ .error (.invalidHash h') := by
  unfold parse_mc3
  rw [if_pos hsw]
  rcases splitChar sep (hash.data.drop pfx.data.length) with _ | ⟨a, _ | ⟨b, _ | ⟨c, t⟩⟩⟩
  · simp
  · simp
  · exact parse_mc3_finish_ne_invalid a b [] rb dflt h h'
  · rcases t with _ | ⟨d, t2⟩
    · exact parse_mc3_finish_ne_invalid a b c rb dflt h h'
    · simp

theorem errorMessage_invalid_ne_malformed (h1 h2 : Option String) (rsn : Option String) :
    errorMessage (.invalidHash h1) ≠ errorMessage (.malformedHash h2 rsn) := by
  intro he
  have h0 : (errorMessage (.invalidHash h1)).data.head? =
      (errorMessage (.malformedHash h2 rsn)).data.head? := by rw [he]
  cases rsn with
  | none =>
    have e1 : (errorMessage (.invalidHash h1)).data.head? = some 'n' := rfl
    have e2 : (errorMessage (.malformedHash h2 none)).data.head? = some 'm' := rfl
    rw [e1, e2] at h0
    simp at h0
  | some r =>
    have e1 : (errorMessage (.invalidHash h1)).data.head? = some 'n' := rfl
    have e2 : (errorMessage (.malformedHash h2 (some r))).data.head? = some 'm' := rfl
    rw [e1, e2] at h0
    simp at h0

end Passlib

namespace Passlib

/--
C7: error taxonomy of the MCF parsers.  parse_mc2 and parse_mc3 raise the
invalid-hash error exactly when the literal prefix is missing; when the
prefix is present but the remainder splits into a number of fields other
than 1 or 2 (parse_mc2) or 2 or 3 (parse_mc3) they raise the distinct
malformed-hash error; and the two error kinds carry distinct messages, so
the caller can tell them apart.
-/
theorem hash_format_error_taxonomy (hash pfx : String) (sep : Char) (h : Option String)
    (rb : Nat) (dflt : Option Int) :
    (parse_mc2 hash pfx sep h = .error (.invalidHash h) ↔ pyStartsWith hash pfx = false)
    ∧ (parse_mc3 hash pfx sep rb dflt h = .error (.invalidHash h) ↔
        pyStartsWith hash pfx = false)
    ∧ (pyStartsWith hash pfx = true →
        (splitChar sep (hash.data.drop pfx.data.length)).length ≠ 1 →
        (splitChar sep (hash.data.drop pfx.data.length)).length ≠ 2 →
        parse_mc2 hash pfx sep h = .error (.malformedHash h none))
    ∧ (pyStartsWith hash pfx = true →
        (splitChar sep (hash.data.drop pfx.data.length)).length ≠ 2 →
        (splitChar sep (hash.data.drop pfx.data.length)).length ≠ 3 →
        parse_mc3 hash pfx sep rb dflt h = .error (.malformedHash h none))
    ∧ (∀ h1 h2 rsn, errorMessage (.invalidHash h1) ≠ errorMessage (.malformedHash h2 rsn)) := by
  refine ⟨?_, ?_, ?_, ?_, errorMessage_invalid_ne_malformed⟩
  · constructor
    · intro he
      by_cases hsw : pyStartsWith hash pfx
      · exact absurd he (parse_mc2_ne_invalid hash pfx sep h h hsw)
      · simpa using hsw
    · intro hsw
      unfold parse_mc2
      rw [if_neg (by simp [hsw])]
  · constructor
    · intro he
      by_cases hsw : pyStartsWith hash pfx
      · exact absurd he (parse_mc3_ne_invalid hash pfx sep rb dflt h h hsw)
      · simpa using hsw
    · intro hsw
      unfold parse_mc3
      rw [if_neg (by simp [hsw])]
  · intro hsw hl1 hl2
    unfold parse_mc2
    rw [if_pos hsw]
    generalize hG : splitChar sep (hash.data.drop pfx.data.length) = L at hl1 hl2 ⊢
    rcases L with _ | ⟨a, _ | ⟨b, _ | ⟨c, t⟩⟩⟩
    · rfl
    · simp at hl1
    · simp at hl2
    · rfl
  · intro hsw hl2 hl3
    unfold parse_mc3
    rw [if_pos hsw]
    generalize hG : splitChar sep (hash.data.drop pfx.data.length) = L at hl2 hl3 ⊢
    rcases L with _ | ⟨a, _ | ⟨b, _ | ⟨c, t⟩⟩⟩
    · rfl
    · rfl
    · simp at hl2
    · rcases t with _ | ⟨d, t2⟩
      · simp at hl3
      · rfl

theorem hash_format_error_taxonomy_witness :
    parse_mc2 "ggg" "$1$" '$' none = .error (.invalidHash none)
    ∧ parse_mc2 "$1$a$b$c" "$1$" '$' none = .error (.malformedHash none none)
    ∧ parse_mc3 "$1$a$b$c$d" "$1$" '$' 10 none none = .error (.malformedHash none none)
    ∧ errorMessage (.invalidHash none) ≠ errorMessage (.malformedHash none none) := by
  have t1 := hash_format_error_taxonomy "ggg" "$1$" '$' none 10 none
  have t2 := hash_format_error_taxonomy "$1$a$b$c" "$1$" '$' none 10 none
  have t3 := hash_format_error_taxonomy "$1$a$b$c$d" "$1$" '$' none 10 none
  exact ⟨t1.1.mpr (by decide), t2.2.2.1 (by decide) (by decide) (by decide),
    t3.2.2.2.1 (by decide) (by decide) (by decide), t1.2.2.2.2 none none none⟩

/--
C8: two-mode contract of rounds normalization.  For a handler with
min_rounds 1000 and max_rounds 9999, normalizing rounds 50 in relaxed mode
clamps to 1000 and emits a PasslibHashWarning while strict mode raises
ValueError; an over-maximum value 20000 is clamped to 9999 with a warning
in relaxed mode and raises in strict mode; and a non-integer rounds value
raises a TypeError in both modes.
-/
theorem norm_rounds_two_mode_contract :
    norm_rounds { name := "toyrounds", min_rounds := 1000, max_rounds := some 9999 }
        (.int 50) true "rounds" =
      .ok (1000, [.passlibHashWarning
        "toyrounds: rounds (50) is too low, must be at least 1000"])
    ∧ norm_rounds { name := "toyrounds", min_rounds := 1000, max_rounds := some 9999 }
        (.int 50) false "rounds" =
      .error (.valueError "toyrounds: rounds (50) is too low, must be at least 1000")
    ∧ norm_rounds { name := "toyrounds", min_rounds := 1000, max_rounds := some 9999 }
        (.int 20000) true "rounds" =
      .ok (9999, [.passlibHashWarning
        "toyrounds: rounds (20000) is too large, cannot be more than 9999"])
    ∧ norm_rounds { name := "toyrounds", min_rounds := 1000, max_rounds := some 9999 }
        (.int 20000) false "rounds" =
      .error (.valueError "toyrounds: rounds (20000) is too large, cannot be more than 9999")
    ∧ norm_rounds { name := "toyrounds", min_rounds := 1000, max_rounds := some 9999 }
        (.str "50") true "rounds" = .error (.expectedTypeError "integer" "rounds")
    ∧ norm_rounds { name := "toyrounds", min_rounds := 1000, max_rounds := some 9999 }
        (.str "50") false "rounds" = .error (.expectedTypeError "integer" "rounds") :=
  ⟨rfl, rfl, rfl, rfl, rfl, rfl⟩

end Passlib

namespace Passlib

theorem to_unicode_for_identify_total {v : PyValue} (hv : isStrOrBytes v = true) :
    ∃ s, to_unicode_for_identify v = .ok s := by
  cases v with
  | str s => exact ⟨s, rfl⟩
  | bytes b =>
    cases hd : utf8Decode? b with
    | some cs =>
      refine ⟨String.mk cs, ?_⟩
      show (match utf8Decode? b with
        | some cs => (Except.ok (String.mk cs) : Except PasslibError String)
        | none => Except.ok (String.mk (latin1Decode b))) = Except.ok (String.mk cs)
      rw [hd]
    | none =>
      refine ⟨String.mk (latin1Decode b), ?_⟩
      show (match utf8Decode? b with
        | some cs => (Except.ok (String.mk cs) : Except PasslibError String)
        | none => Except.ok (String.mk (latin1Decode b))) =
        Except.ok (String.mk (latin1Decode b))
      rw [hd]
  | int i => simp [isStrOrBytes] at hv
  | other t => simp [isStrOrBytes] at hv

theorem ghandler_identify_eq {S C : Type} (H : GHandler S C) (v : PyValue) (s : String)
    (hs : to_unicode_for_identify v = .ok s) :
    H.identify v =
      (if s.data = [] then .ok false
       else
         match H.ident with
         | some id0 => .ok (pyStartsWith s id0)
         | none =>
           match H.hash_regex with
           | some pat => .ok (pat s)
           | none =>
             match H.from_string s with
             | .ok _ => .ok true
             | .error e => if isValueError e then .ok false else .error e) := by
  unfold GHandler.identify
  rw [hs]

/--
C9 (amended): identify never propagates a parse failure for text or bytes
input.  Provided from_string honors its documented contract of raising
only ValueError on a bad hash, identify applied to any str or bytes value
returns a boolean: the bytes decode path is total (latin-1 fallback), the
empty string returns False, the ident and regex fast paths return
booleans, and a ValueError from the full-parse fallback is converted to
False.  For input that is neither text nor bytes, identify raises
ExpectedStringError rather than returning False (see the counterexample
theorem for the original claim).
-/
theorem identify_catches_parse_failures {S C : Type} (H : GHandler S C) (v : PyValue)
    (hctr : ∀ h e, H.from_string h = .error e → isValueError e = true)
    (hv : isStrOrBytes v = true) :
    ∃ b, H.identify v = .ok b := by
  obtain ⟨s, hs⟩ := to_unicode_for_identify_total hv
  rw [ghandler_identify_eq H v s hs]
  by_cases he : s.data = []
  · rw [if_pos he]
    exact ⟨false, rfl⟩
  · rw [if_neg he]
    cases H.ident with
    | some id0 => exact ⟨_, rfl⟩
    | none =>
      cases H.hash_regex with
      | some pat => exact ⟨_, rfl⟩
      | none =>
        cases hfs : H.from_string s with
        | ok p => exact ⟨true, rfl⟩
        | error e =>
          refine ⟨false, ?_⟩
          show (if isValueError e = true then (Except.ok false : Except PasslibError Bool)
            else Except.error e) = Except.ok false
          rw [if_pos (hctr s e hfs)]

/--
C9 counterexample: the claim "identify returns False for any input that is
not text or bytes" is false on the code: to_unicode_for_identify raises
ExpectedStringError(hash, "hash") for such input, and identify propagates
it instead of returning False.
-/
theorem identify_nonstring_raises :
    GHandler.identify toyHandler (.other "NoneType") =
      .error (.expectedTypeError "str or bytes" "hash") := rfl

theorem identify_catches_parse_failures_witness :
    ∃ b, GHandler.identify toyHandler (.str "zzz") = .ok b :=
  identify_catches_parse_failures toyHandler (.str "zzz")
    (by
      intro h e he
      simp only [toyHandler] at he
      split_ifs at he
      all_goals injection he with he2
      all_goals subst he2
      all_goals rfl)
    rfl

end Passlib

namespace Passlib

theorem append_drop_of_startsWith {h q : String} (hs : pyStartsWith h q = true) :
    q ++ pyDropLen h q.data.length = h := by
  unfold pyStartsWith at hs
  rw [ List.isPrefixOf_iff_prefix] at hs
  obtain ⟨t, ht⟩ := hs
  apply string_ext
  show q.data ++ h.data.drop q.data.length = h.data
  rw [← ht, List.drop_left]

theorem pyDropLen_append (p r : String) : pyDropLen (p ++ r) p.data.length = r := by
  unfold pyDropLen
  rw [data_drop_append, string_mk_data]

/--
C4: PrefixWrapper string rewriting.  For a wrapper with prefix p and
orig_prefix q and any hash string h carrying the original prefix q,
unwrap_hash inverts wrap_hash exactly; the wrapper identifies the wrapped
form of h whenever the wrapped handler identifies h; and the wrapper's
identify returns False on the unwrapped string when it does not start with
the wrapper prefix p.
-/
theorem prefix_wrapper_roundtrip {S C : Type} (w : PrefixWrapper S C) (h : String)
    (hq : pyStartsWith h w.origPrefix = true) :
    (∀ u, w.wrap_hash h = .ok u → w.unwrap_hash u = .ok h)
    ∧ (∀ u, w.wrap_hash h = .ok u → w.wrapped.identify (.str h) = .ok true →
        w.identify (.str u) = .ok true)
    ∧ (pyStartsWith h w.wrapPrefix = false → w.identify (.str h) = .ok false) := by
  have hwrap : w.wrap_hash h =
      .ok (w.wrapPrefix ++ pyDropLen h w.origPrefix.data.length) := by
    unfold PrefixWrapper.wrap_hash
    rw [if_pos hq]
  have hun : w.unwrap_hash (w.wrapPrefix ++ pyDropLen h w.origPrefix.data.length) =
      .ok h := by
    unfold PrefixWrapper.unwrap_hash
    rw [if_pos (pyStartsWith_append _ _), pyDropLen_append, append_drop_of_startsWith hq]
  refine ⟨?_, ?_, ?_⟩
  · intro u hu
    rw [hwrap] at hu
    injection hu with hu
    subst hu
    exact hun
  · intro u hu hid
    rw [hwrap] at hu
    injection hu with hu
    subst hu
    unfold PrefixWrapper.identify
    show (if ¬ pyStartsWith (w.wrapPrefix ++ pyDropLen h w.origPrefix.data.length)
        w.wrapPrefix = true then (Except.ok false : Except PasslibError Bool)
      else
        match w.unwrap_hash (w.wrapPrefix ++ pyDropLen h w.origPrefix.data.length) with
        | .error e => .error e
        | .ok u => w.wrapped.identify (.str u)) = Except.ok true
    rw [if_neg (by rw [pyStartsWith_append]; exact fun hc => hc rfl)]
    rw [hun]
    exact hid
  · intro hnp
    unfold PrefixWrapper.identify
    show (if ¬ pyStartsWith h w.wrapPrefix = true then (Except.ok false : Except PasslibError Bool)
      else
        match w.unwrap_hash h with
        | .error e => .error e
        | .ok u => w.wrapped.identify (.str u)) = Except.ok false
    rw [if_pos (by rw [hnp]; exact Bool.false_ne_true)]

theorem prefix_wrapper_roundtrip_witness :
    toyWrapper.wrap_hash "toy$T" = .ok "W-toy$T"
    ∧ toyWrapper.unwrap_hash "W-toy$T" = .ok "toy$T"
    ∧ toyWrapper.identify (.str "W-toy$T") = .ok true
    ∧ toyWrapper.identify (.str "toy$F") = .ok false := by
  have h1 := prefix_wrapper_roundtrip toyWrapper "toy$T" (by decide)
  have h2 := prefix_wrapper_roundtrip toyWrapper "toy$F" (by decide)
  exact ⟨rfl, h1.1 "W-toy$T" rfl, h1.2.1 "W-toy$T" rfl rfl, h2.2.2 (by decide)⟩

end Passlib

namespace Passlib

theorem set_backend_any_loop_cons (spec : BackendSpec) (n : String)
    (rest : List String) (defErr : Option PasslibError)
    (hcur : spec.current = none) (hm : n ∈ spec.backends) :
    set_backend_any_loop spec (n :: rest) defErr =
      (match spec.loader n with
       | .loaded => .ok n
       | .missing => set_backend_any_loop spec rest defErr
       | .security msg => set_backend_any_loop spec rest
           (match defErr with
            | none => some (.securityError msg)
            | some e => some e)) := by
  conv_lhs => unfold set_backend_any_loop
  rw [hcur]
  rw [if_neg (by simp)]
  unfold load_backend
  rw [if_neg (not_not_intro hm)]
  cases spec.loader n <;> rfl

theorem set_backend_any_loop_all_bad (spec : BackendSpec) (l : List String)
    (e : PasslibError) (hcur : spec.current = none)
    (hmem : ∀ x ∈ l, x ∈ spec.backends)
    (hno : ∀ x ∈ l, spec.loader x ≠ .loaded) :
    set_backend_any_loop spec l (some e) = .error e := by
  induction l with
  | nil => rfl
  | cons n rest ih =>
    have hm : n ∈ spec.backends := hmem n (by simp)
    have hnl : spec.loader n ≠ .loaded := hno n (by simp)
    rw [set_backend_any_loop_cons spec n rest (some e) hcur hm]
    have ih2 := ih (fun x hx => hmem x (List.mem_cons_of_mem n hx))
      (fun x hx => hno x (List.mem_cons_of_mem n hx))
    cases hload : spec.loader n with
    | loaded => exact absurd hload hnl
    | missing => exact ih2
    | security m => exact ih2

theorem set_backend_any_loop_missing_run (spec : BackendSpec) (l rest' : List String)
    (defErr : Option PasslibError) (hcur : spec.current = none)
    (hmem : ∀ x ∈ l, x ∈ spec.backends)
    (hmiss : ∀ x ∈ l, spec.loader x = .missing) :
    set_backend_any_loop spec (l ++ rest') defErr =
      set_backend_any_loop spec rest' defErr := by
  induction l with
  | nil => rfl
  | cons n rest ih =>
    have hm : n ∈ spec.backends := hmem n (by simp)
    show set_backend_any_loop spec (n :: (rest ++ rest')) defErr = _
    rw [set_backend_any_loop_cons spec n (rest ++ rest') defErr hcur hm]
    rw [hmiss n (by simp)]
    exact ih (fun x hx => hmem x (List.mem_cons_of_mem n hx))
      (fun x hx => hmiss x (List.mem_cons_of_mem n hx))

theorem set_backend_any_loop_skip_nonloaded (spec : BackendSpec) (l : List String)
    (rest' : List String) (hcur : spec.current = none)
    (hmem : ∀ x ∈ l, x ∈ spec.backends)
    (hno : ∀ x ∈ l, spec.loader x ≠ .loaded) :
    ∀ defErr, ∃ d, set_backend_any_loop spec (l ++ rest') defErr =
      set_backend_any_loop spec rest' d := by
  induction l with
  | nil => exact fun defErr => ⟨defErr, rfl⟩
  | cons n rest ih =>
    intro defErr
    have hm : n ∈ spec.backends := hmem n (by simp)
    have hnl : spec.loader n ≠ .loaded := hno n (by simp)
    have ih2 := ih (fun x hx => hmem x (List.mem_cons_of_mem n hx))
      (fun x hx => hno x (List.mem_cons_of_mem n hx))
    have hstep := set_backend_any_loop_cons spec n (rest ++ rest') defErr hcur hm
    cases hload : spec.loader n with
    | loaded => exact absurd hload hnl
    | missing =>
      obtain ⟨d, hd⟩ := ih2 defErr
      refine ⟨d, ?_⟩
      show set_backend_any_loop spec (n :: (rest ++ rest')) defErr = _
      rw [hstep, hload]
      exact hd
    | security m =>
      cases defErr with
      | none =>
        obtain ⟨d, hd⟩ := ih2 (some (.securityError m))
        refine ⟨d, ?_⟩
        show set_backend_any_loop spec (n :: (rest ++ rest')) none = _
        rw [hstep, hload]
        exact hd
      | some e0 =>
        obtain ⟨d, hd⟩ := ih2 (some e0)
        refine ⟨d, ?_⟩
        show set_backend_any_loop spec (n :: (rest ++ rest')) (some e0) = _
        rw [hstep, hload]
        exact hd

/--
C3: security-refusal semantics of backend selection.  With no backend
loaded yet and name "any" or "default", a candidate whose loader raises
PasslibSecurityError is skipped in favor of the first later candidate that
loads successfully; and when no candidate loads successfully and the first
failure past the missing candidates is a security refusal, that first
security-refusal error is re-raised rather than the generic
missing-backend error.
-/
theorem backend_security_refusal (spec : BackendSpec) (nm : String)
    (pre rest : List String) (b : String)
    (hnm : nm = "any" ∨ nm = "default") (hcur : spec.current = none)
    (hb : spec.backends = pre ++ b :: rest) :
    ((∀ x ∈ pre, spec.loader x ≠ .loaded) → spec.loader b = .loaded →
      set_backend spec nm = .ok b)
    ∧ (∀ msg, (∀ x ∈ pre, spec.loader x = .missing) → spec.loader b = .security msg →
      (∀ x ∈ rest, spec.loader x ≠ .loaded) →
      set_backend spec nm = .error (.securityError msg)) := by
  have hroute : set_backend spec nm = set_backend_any_loop spec spec.backends none := by
    unfold set_backend
    rw [if_neg (by simp [hcur]), if_pos hnm]
  have hmemb : b ∈ spec.backends := by rw [hb]; simp
  constructor
  · intro hpre hbl
    rw [hroute, hb]
    obtain ⟨d, hd⟩ := set_backend_any_loop_skip_nonloaded spec pre (b :: rest) hcur
      (fun x hx => by rw [hb]; exact List.mem_append_left _ hx) hpre none
    rw [hd]
    unfold set_backend_any_loop load_backend
    rw [hcur]
    rw [if_neg (by simp)]
    rw [if_neg (not_not_intro hmemb)]
    rw [hbl]
  · intro msg hpre hbl hrest
    rw [hroute, hb]
    rw [set_backend_any_loop_missing_run spec pre (b :: rest) none hcur
      (fun x hx => by rw [hb]; exact List.mem_append_left _ hx) hpre]
    unfold set_backend_any_loop load_backend
    rw [hcur]
    rw [if_neg (by simp)]
    rw [if_neg (not_not_intro hmemb)]
    rw [hbl]
    exact set_backend_any_loop_all_bad spec rest (.securityError msg) hcur
      (fun x hx => by rw [hb]; exact List.mem_append_right _ (List.mem_cons_of_mem b hx))
      hrest

theorem backend_security_refusal_witness :
    set_backend toyBackendSpec "any" = .ok "portable"
    ∧ set_backend toyBadBackendSpec "any" =
        .error (.securityError "fast backend is vulnerable") := by
  have h1 := backend_security_refusal toyBackendSpec "any" ["fast"] [] "portable"
    (Or.inl rfl) rfl rfl
  have h2 := backend_security_refusal toyBadBackendSpec "any" [] ["os"] "fast"
    (Or.inl rfl) rfl rfl
  exact ⟨h1.1 (by decide) (by decide),
    h2.2 "fast backend is vulnerable" (by decide) (by decide) (by decide)⟩

end Passlib

namespace Passlib

theorem validate_secret_ok {s : PyValue} (hty : isStrOrBytes s = true)
    (hsz : pyLen s ≤ MAX_PASSWORD_SIZE) : validate_secret s = .ok () := by
  unfold validate_secret
  rw [if_neg (fun hc => hc hty), if_neg (by omega)]

theorem ghandler_hash_eq {S C : Type} (H : GHandler S C) (secret : PyValue)
    (hv : validate_secret secret = .ok ()) :
    H.hash secret = .ok (H.to_string H.defaults (H.calc_checksum H.defaults secret)) := by
  unfold GHandler.hash
  rw [hv]
  rfl

theorem consteq_self {C : Type} [DecidableEq C] (a : C) : consteq a a = true := by
  simp [consteq]

/--
C1: verify-after-hash correctness for every GenericHandler-derived
handler.  Given any handler whose from_string inverts to_string (the
GenericHandler subclass contract) and any secret of valid type within the
global size limit, hash builds an instance from defaults, computes and
renders the checksum, and verify re-parses that string, recomputes the
checksum from the parsed settings and compares it equal, returning True.
-/
theorem generic_hash_verify_roundtrip {S C : Type} [DecidableEq C] (H : GHandler S C)
    (secret : PyValue) (hty : isStrOrBytes secret = true)
    (hsz : pyLen secret ≤ MAX_PASSWORD_SIZE)
    (hrt : ∀ st c, H.from_string (H.to_string st c) = .ok (st, some c)) :
    (H.hash secret).bind (fun hs => H.verify secret hs) = .ok true := by
  have hv : validate_secret secret = .ok () := validate_secret_ok hty hsz
  rw [ghandler_hash_eq H secret hv]
  show H.verify secret (H.to_string H.defaults (H.calc_checksum H.defaults secret)) = .ok true
  unfold GHandler.verify
  rw [hv, hrt H.defaults (H.calc_checksum H.defaults secret)]
  show Except.ok (consteq (H.calc_checksum H.defaults secret)
    (H.calc_checksum H.defaults secret)) = Except.ok true
  rw [consteq_self]

theorem generic_hash_verify_roundtrip_witness :
    (toyHandler.hash (.str "abc")).bind (fun hs => toyHandler.verify (.str "abc") hs) =
      .ok true :=
  generic_hash_verify_roundtrip toyHandler (.str "abc") rfl (by decide)
    (fun _ c => by cases c <;> rfl)

theorem validate_secret_too_big {s : PyValue} (hty : isStrOrBytes s = true)
    (hsz : pyLen s > MAX_PASSWORD_SIZE) :
    validate_secret s = .error (.passwordSizeError MAX_PASSWORD_SIZE) := by
  unfold validate_secret
  rw [if_neg (fun hc => hc hty), if_pos hsz]

theorem validate_secret_bad_type {s : PyValue} (hty : isStrOrBytes s = false) :
    validate_secret s = .error (.expectedTypeError "str or bytes" "secret") := by
  unfold validate_secret
  rw [if_pos (by simp [hty])]

theorem ghandler_hash_validate_error {S C : Type} (H : GHandler S C) (secret : PyValue)
    (e : PasslibError) (hv : validate_secret secret = .error e) :
    H.hash secret = .error e := by
  unfold GHandler.hash
  rw [hv]
  rfl

theorem ghandler_verify_validate_error {S C : Type} [DecidableEq C] (H : GHandler S C)
    (secret : PyValue) (hash : String) (e : PasslibError)
    (hv : validate_secret secret = .error e) :
    H.verify secret hash = .error e := by
  unfold GHandler.verify
  rw [hv]
  rfl

/--
C5: the secret-size ceiling and type check.  For every handler, hash and
verify run validate_secret before any handler-specific work (the resulting
error is the same for every handler and, for verify, every hash string):
a str/bytes secret longer than MAX_PASSWORD_SIZE raises PasswordSizeError
carrying the limit as its max_size payload, and a secret that is neither
str nor bytes raises the ExpectedStringError TypeError instead.
-/
theorem secret_validation_guards {S C : Type} [DecidableEq C] (H : GHandler S C)
    (secret : PyValue) (hsh : String) :
    (isStrOrBytes secret = true → pyLen secret > MAX_PASSWORD_SIZE →
      H.hash secret = .error (.passwordSizeError MAX_PASSWORD_SIZE)
      ∧ H.verify secret hsh = .error (.passwordSizeError MAX_PASSWORD_SIZE))
    ∧ (isStrOrBytes secret = false →
      H.hash secret = .error (.expectedTypeError "str or bytes" "secret")
      ∧ H.verify secret hsh = .error (.expectedTypeError "str or bytes" "secret")) := by
  constructor
  · intro hty hsz
    have hv := validate_secret_too_big hty hsz
    exact ⟨ghandler_hash_validate_error H secret _ hv,
      ghandler_verify_validate_error H secret hsh _ hv⟩
  · intro hty
    have hv := validate_secret_bad_type hty
    exact ⟨ghandler_hash_validate_error H secret _ hv,
      ghandler_verify_validate_error H secret hsh _ hv⟩

theorem secret_validation_guards_witness :
    toyHandler.hash (.bytes (List.replicate 4097 0)) =
      .error (.passwordSizeError MAX_PASSWORD_SIZE)
    ∧ toyHandler.verify (.bytes (List.replicate 4097 0)) "toy$T" =
      .error (.passwordSizeError MAX_PASSWORD_SIZE)
    ∧ toyHandler.hash (.int 5) = .error (.expectedTypeError "str or bytes" "secret")
    ∧ toyHandler.verify (.int 5) "toy$T" =
      .error (.expectedTypeError "str or bytes" "secret") := by
  have hbig := (secret_validation_guards toyHandler (.bytes (List.replicate 4097 0)) "toy$T").1
    rfl (by
      show (List.replicate 4097 (0 : Nat)).length > MAX_PASSWORD_SIZE
      rw [List.length_replicate]
      norm_num [MAX_PASSWORD_SIZE])
  have hbad := (secret_validation_guards toyHandler (.int 5) "toy$T").2 rfl
  exact ⟨hbig.1, hbig.2, hbad.1, hbad.2⟩

end Passlib
